import Mathlib

/-!
# Verification of the go-fluent-client dispatch core

A shallow embedding of the client-side dispatch layer from
`fluent.go` and `options.go` (package `fluent`): the option carrier,
the message envelope and its reuse pool, and the `Client`'s
`Post`, `Close` and `Shutdown` methods.

Modelling choices:

* A Go `error` is `Option String` (`none` = nil).
* A Go `time.Time` is represented by its Unix seconds (`Int`),
  which is the only observation `Post` makes of it (`.Unix()`).
* Channel interactions are resolved by an explicit environment
  recording, at each `select`, which branches are ready and which
  one the runtime picks when several are ready at once.  A `select`
  with no ready branch yields an explicitly `blocked` outcome.
* Go interface type assertions (`opt.Value().(time.Time)` and
  `opt.Value().(bool)`) panic on a value of the wrong dynamic type;
  this is modelled by a `panicked` outcome.
-/

namespace Fluent

/-- A Go `error` value: `none` is the nil error. -/
abbrev GoErr : Type := Option String

/-- A Go `time.Time`, observed only through its `Unix()` seconds. -/
structure GoTime where
  unix : Int
deriving DecidableEq, Repr

/-- Marshaling strategy tokens carried by the `marshaler` option
(`marshalFunc(jsonMarshal)` / `marshalFunc(msgpackMarshal)`). -/
inductive Marshaler where
  | json
  | msgpack
deriving DecidableEq, Repr

/-- The dynamic value cell of an option (`value interface{}`). -/
inductive OptValue where
  | strVal (s : String)
  | boolVal (b : Bool)
  | intVal (i : Int)
  | timeVal (t : GoTime)
  | marshalerVal (m : Marshaler)
deriving DecidableEq, Repr

/-- `type option struct { name string; value interface{} }` from
`options.go`. -/
structure Opt where
  name : String
  value : OptValue
deriving DecidableEq, Repr

/-- `func (o *option) Name() string` -/
def Opt.Name (o : Opt) : String := o.name

/-- `func (o *option) Value() interface{}` -/
def Opt.Value (o : Opt) : OptValue := o.value

/-- `WithNetwork` from `options.go`. -/
def WithNetwork (s : String) : Opt := ⟨"network", .strVal s⟩

/-- `WithAddress` from `options.go`. -/
def WithAddress (s : String) : Opt := ⟨"address", .strVal s⟩

/-- `WithTimestamp` from `options.go`. -/
def WithTimestamp (t : GoTime) : Opt := ⟨"timestamp", .timeVal t⟩

/-- `WithJSONMarshaler` from `options.go`. -/
def WithJSONMarshaler : Opt := ⟨"marshaler", .marshalerVal .json⟩

/-- `WithMsgpackMarshaler` from `options.go`. -/
def WithMsgpackMarshaler : Opt := ⟨"marshaler", .marshalerVal .msgpack⟩

/-- `WithTagPrefix` from `options.go`. -/
def WithTagPrefix (s : String) : Opt := ⟨"tag_prefix", .strVal s⟩

/-- `WithSyncAppend` from `options.go`. -/
def WithSyncAppend (b : Bool) : Opt := ⟨"sync_append", .boolVal b⟩

/-- `WithBufferLimit` from `options.go` (value is an opaque
`interface{}`; we carry an `Int`). -/
def WithBufferLimit (v : Int) : Opt := ⟨"buffer_limit", .intVal v⟩

/-- `WithWriteThreshold` from `options.go`. -/
def WithWriteThreshold (i : Int) : Opt := ⟨"write_threshold", .intVal i⟩

/-- `WithSubsecond` from `options.go`. -/
def WithSubsecond (b : Bool) : Opt := ⟨"subsecond", .boolVal b⟩

/-- The option scan loop of `Client.Post` (`fluent.go` lines 66-78,
without the trailing `t == 0` default which is applied after the
loop): starting from the current `t` and `syncAppend`, process the
remaining options in order.  A `timestamp` or `sync_append` option
carrying a value of the wrong dynamic type makes the Go type
assertion panic, modelled by `.error`. -/
def scanOptions : List Opt → Int → Bool → Except String (Int × Bool)
  | [], t, syncAppend => .ok (t, syncAppend)
  | opt :: rest, t, syncAppend =>
    if opt.Name = "timestamp" then
      match opt.Value with
      | .timeVal tv => scanOptions rest tv.unix syncAppend
      | _ => .error "interface conversion: interface \x7b\x7d is not time.Time"
    else if opt.Name = "sync_append" then
      match opt.Value with
      | .boolVal b => scanOptions rest t b
      | _ => .error "interface conversion: interface \x7b\x7d is not bool"
    else scanOptions rest t syncAppend

/-- An option whose dynamic value has the type that the scan's type
assertion expects for its name (options built by the constructors in
`options.go` are all well-typed). -/
def wellTypedOpt (o : Opt) : Bool :=
  if o.name = "timestamp" then
    (match o.value with | .timeVal _ => true | _ => false)
  else if o.name = "sync_append" then
    (match o.value with | .boolVal _ => true | _ => false)
  else true

/-- All options in the list are well-typed. -/
def wellTypedOpts (l : List Opt) : Bool := l.all wellTypedOpt

/-- A message envelope (`type Message struct` of this package):
tag, unix-seconds timestamp, opaque record payload, and an optional
acknowledgment channel.  The channel itself is abstracted to its
presence (`replyCh`); the worker's reply travels through the
`PostEnv` environment. `Record` is `none` for Go's nil interface. -/
structure Envelope (α : Type) where
  Tag : String
  Time : Int
  Record : Option α
  replyCh : Bool
deriving DecidableEq, Repr

/-- A zeroed envelope. -/
def Envelope.zero (α : Type) : Envelope α := ⟨"", 0, none, false⟩

/-- Modelled from the spec: `getMessage` / the envelope pool's
`acquire() -> *Envelope` (its source file is not under `src/`).
Per §4.2 it "returns a zeroed or reset envelope, reusing previously
released instances when available, allocating a new one otherwise".
The pool is a list of (already reset) envelopes. -/
def getMessage (pool : List (Envelope α)) : Envelope α × List (Envelope α) :=
  match pool with
  | [] => (Envelope.zero α, [])
  | e :: rest => (e, rest)

/-- Modelled from the spec: `releaseMessage` / the envelope pool's
`release(*Envelope)` (its source file is not under `src/`).  Per
§4.2 it "clears all fields (including dropping the reference to any
acknowledgment channel) and returns the instance to the pool". -/
def releaseMessage (pool : List (Envelope α)) (_e : Envelope α) :
    List (Envelope α) :=
  Envelope.zero α :: pool

/-- The environment resolving `Post`'s channel interactions:
`time.Now().Unix()`, and for each of the two `select` statements
which branches are ready and, when both are, which one the runtime
picks. -/
structure PostEnv where
  nowUnix : Int
  /-- `c.minionDone` is closed (readable) at the enqueue select. -/
  doneAtEnqueue : Bool
  /-- `c.minionQueue <- msg` can proceed at the enqueue select. -/
  queueReady : Bool
  /-- runtime choice at the enqueue select when both branches are
  ready: `true` picks the `minionDone` branch. -/
  enqueuePicksDone : Bool
  /-- `c.minionDone` is closed (readable) at the acknowledgment
  select. -/
  doneAtAck : Bool
  /-- `replyCh` has a value ready at the acknowledgment select. -/
  ackReady : Bool
  /-- runtime choice at the acknowledgment select when both branches
  are ready: `true` picks the `minionDone` branch. -/
  ackPicksDone : Bool
  /-- the value the worker sends on `replyCh` (nil or an error). -/
  ackValue : GoErr
deriving Repr

/-- How a `Post` call ends. -/
inductive PostResult where
  /-- the call returns the given Go error value. -/
  | ret (e : GoErr)
  /-- the call is blocked in a `select` with no ready branch. -/
  | blocked
  /-- a type assertion in the option scan panicked. -/
  | panicked (msg : String)
deriving DecidableEq

/-- Everything observable about one `Post` call: its result, the
envelope handed to the enqueue channel (if any), and the envelope
pool after the call. -/
structure PostOut (α : Type) where
  result : PostResult
  enqueued : Option (Envelope α)
  pool : List (Envelope α)

/-- The `client has already been closed` error message. -/
def clientClosedErr : GoErr := some "client has already been closed"

/-- The `writer has been closed. Shutdown called?` error message. -/
def writerClosedErr : GoErr := some "writer has been closed. Shutdown called?"

/-- `Client.Post` (`fluent.go` lines 57-115).  `closed` is the
closed flag read under the read-lock; `pool` is the envelope pool;
`env` resolves the channel races. -/
def Client.Post (closed : Bool) (pool : List (Envelope α)) (env : PostEnv)
    (tag : String) (v : α) (options : List Opt) : PostOut α :=
  -- if c.closed { return errors.New(`client has already been closed`) }
  if closed then
    ⟨.ret clientClosedErr, none, pool⟩
  else
    -- var syncAppend bool; var t int64; for _, opt := range options { ... }
    match scanOptions options 0 false with
    | .error m => ⟨.panicked m, none, pool⟩
    | .ok (t0, syncAppend) =>
      -- if t == 0 { t = time.Now().Unix() }
      let t : Int := if t0 = 0 then env.nowUnix else t0
      -- msg := getMessage(); msg.Tag = tag; msg.Time = t; msg.Record = v
      let acq := getMessage pool
      let pool1 := acq.2
      -- if syncAppend { replyCh = make(chan error); msg.replyCh = replyCh }
      let msg : Envelope α :=
        { acq.1 with Tag := tag, Time := t, Record := some v,
                     replyCh := syncAppend }
      -- select { case <-c.minionDone: ...; case c.minionQueue <- msg: }
      if env.doneAtEnqueue && (!env.queueReady || env.enqueuePicksDone) then
        ⟨.ret writerClosedErr, none, pool1⟩
      else if env.queueReady then
        if syncAppend then
          -- select { case <-c.minionDone: ...; case e := <-replyCh: return e }
          if env.doneAtAck && (!env.ackReady || env.ackPicksDone) then
            ⟨.ret writerClosedErr, some msg, pool1⟩
          else if env.ackReady then
            ⟨.ret env.ackValue, some msg, pool1⟩
          else
            ⟨.blocked, some msg, pool1⟩
        else
          -- return nil
          ⟨.ret none, some msg, pool1⟩
      else
        ⟨.blocked, none, pool1⟩

/-- The mutable state of a `Client` relevant to the lifecycle claims:
the lock-guarded `closed` flag and how many times `minionCancel`
has been invoked. -/
structure ClientState where
  closed : Bool
  cancelCount : Nat
deriving DecidableEq, Repr

/-- The observable steps `Close` performs, in order. -/
inductive CloseEvent where
  | acquireWriteLock
  | setClosedTrue
  | releaseWriteLock
  | invokeCancel
deriving DecidableEq, Repr

/-- `Client.Close` (`fluent.go` lines 120-127): write-lock, set
`closed = true`, unlock, invoke `minionCancel()`, return nil.
Returns the new state, the ordered event trace, and the error. -/
def Client.Close (s : ClientState) :
    ClientState × List CloseEvent × GoErr :=
  ({ closed := true, cancelCount := s.cancelCount + 1 },
   [.acquireWriteLock, .setClosedTrue, .releaseWriteLock, .invokeCancel],
   none)

/-- A non-nil deadline context passed to `Shutdown`, observed through
the error `ctx.Err()` reports once its done-channel fires. -/
structure Ctx where
  err : String
deriving DecidableEq, Repr

/-- The environment resolving `Shutdown`'s wait-select: readiness of
the supplied context's done-channel and of `minionDone`, and the
runtime's pick when both are ready. -/
structure ShutdownEnv where
  /-- the supplied context's `Done()` channel is ready. -/
  ctxReady : Bool
  /-- `c.minionDone` is closed (readable). -/
  doneReady : Bool
  /-- runtime choice when both are ready: `true` picks `ctx.Done()`. -/
  picksCtx : Bool
deriving Repr

/-- How a `Shutdown` call ends: returning an error value, or blocked
in the wait-select; either way the state after the internal `Close`
is carried. -/
inductive ShutdownOutcome where
  | ret (s : ClientState) (e : GoErr)
  | blocked (s : ClientState)
deriving DecidableEq

/-- `Client.Shutdown` (`fluent.go` lines 132-152): a nil context is
replaced by `context.Background()` (whose done-channel never fires
and whose `Err()` is nil); then `Close`, then
`select { case <-ctx.Done(): return ctx.Err(); case <-c.minionDone: return nil }`. -/
def Client.Shutdown (s : ClientState) (ctx : Option Ctx)
    (env : ShutdownEnv) : ShutdownOutcome :=
  let c := Client.Close s
  let s1 := c.1
  match c.2.2 with
  | some e => .ret s1 (some ("failed to close: " ++ e))
  | none =>
    match ctx with
    | none =>
      -- ctx = context.Background(): its Done() channel is never ready
      if env.doneReady then .ret s1 none else .blocked s1
    | some cx =>
      if env.ctxReady && (!env.doneReady || env.picksCtx) then
        .ret s1 (some cx.err)
      else if env.doneReady then
        .ret s1 none
      else
        .blocked s1

/-- One public operation on a client, for the lifecycle state
machine. -/
inductive ClientOp (α : Type) where
  | post (pool : List (Envelope α)) (env : PostEnv)
      (tag : String) (v : α) (options : List Opt)
  | close
  | shutdown (ctx : Option Ctx) (env : ShutdownEnv)

/-- The effect of one operation on the client state.  `Post` only
reads the `closed` flag (it never writes it); `Close` and `Shutdown`
update the state as `Client.Close` does. -/
def applyOp (s : ClientState) : ClientOp α → ClientState
  | .post _ _ _ _ _ => s
  | .close => (Client.Close s).1
  | .shutdown ctx env =>
    match Client.Shutdown s ctx env with
    | .ret s' _ => s'
    | .blocked s' => s'

/-- The state after a sequence of operations. -/
def applyOps (s : ClientState) (l : List (ClientOp α)) : ClientState :=
  l.foldl applyOp s

/-- The client state carried by a `Shutdown` outcome. -/
def ShutdownOutcome.state : ShutdownOutcome → ClientState
  | .ret s _ => s
  | .blocked s => s

/-- Whether the list contains an option with the given name. -/
def hasOptNamed (l : List Opt) (n : String) : Bool :=
  l.any (fun o => o.Name == n)

/-! ## Helper lemmas about the option scan -/

theorem scanOptions_ok_of_wellTyped (l : List Opt) :
    ∀ t0 sa, wellTypedOpts l = true → ∃ p, scanOptions l t0 sa = .ok p := by
  induction l with
  | nil => intro t0 sa _; exact ⟨(t0, sa), rfl⟩
  | cons o rest ih =>
    intro t0 sa h
    rw [wellTypedOpts, List.all_cons, Bool.and_eq_true] at h
    obtain ⟨ho, hrest⟩ := h
    by_cases h1 : o.name = "timestamp"
    · rw [wellTypedOpt, if_pos h1] at ho
      cases hv : o.value with
      | timeVal tv =>
        rw [scanOptions, Opt.Name, if_pos h1, Opt.Value, hv]
        exact ih tv.unix sa hrest
      | _ => rw [hv] at ho <;> simp at ho
    · by_cases h2 : o.name = "sync_append"
      · rw [wellTypedOpt, if_neg h1, if_pos h2] at ho
        cases hv : o.value with
        | boolVal b =>
          rw [scanOptions, Opt.Name, if_neg h1, if_pos h2, Opt.Value, hv]
          exact ih t0 b hrest
        | _ => rw [hv] at ho <;> simp at ho
      · rw [scanOptions, Opt.Name, if_neg h1, if_neg h2]
        exact ih t0 sa hrest

theorem scanOptions_append (pre : List Opt) :
    ∀ (rest : List Opt) (t0 : Int) (sa : Bool), wellTypedOpts pre = true →
      ∃ t1 sa1, scanOptions (pre ++ rest) t0 sa = scanOptions rest t1 sa1 := by
  induction pre with
  | nil => intro rest t0 sa _; exact ⟨t0, sa, rfl⟩
  | cons o pre ih =>
    intro rest t0 sa h
    rw [wellTypedOpts, List.all_cons, Bool.and_eq_true] at h
    obtain ⟨ho, hpre⟩ := h
    by_cases h1 : o.name = "timestamp"
    · rw [wellTypedOpt, if_pos h1] at ho
      cases hv : o.value with
      | timeVal tv =>
        rw [List.cons_append, scanOptions, Opt.Name, if_pos h1, Opt.Value, hv]
        exact ih rest tv.unix sa hpre
      | _ => rw [hv] at ho <;> simp at ho
    · by_cases h2 : o.name = "sync_append"
      · rw [wellTypedOpt, if_neg h1, if_pos h2] at ho
        cases hv : o.value with
        | boolVal b =>
          rw [List.cons_append, scanOptions, Opt.Name, if_neg h1, if_pos h2,
            Opt.Value, hv]
          exact ih rest t0 b hpre
        | _ => rw [hv] at ho <;> simp at ho
      · rw [List.cons_append, scanOptions, Opt.Name, if_neg h1, if_neg h2]
        exact ih rest t0 sa hpre

theorem scanOptions_no_timestamp (l : List Opt) :
    ∀ t0 sa, wellTypedOpts l = true → hasOptNamed l "timestamp" = false →
      ∃ sa', scanOptions l t0 sa = .ok (t0, sa') := by
  induction l with
  | nil => intro t0 sa _ _; exact ⟨sa, rfl⟩
  | cons o rest ih =>
    intro t0 sa hw hn
    rw [wellTypedOpts, List.all_cons, Bool.and_eq_true] at hw
    rw [hasOptNamed, List.any_cons, Bool.or_eq_false_iff] at hn
    obtain ⟨ho, hrest⟩ := hw
    have h1 : ¬ o.name = "timestamp" := by
      intro hc
      have := hn.1
      rw [Opt.Name, hc] at this
      simp at this
    by_cases h2 : o.name = "sync_append"
    · rw [wellTypedOpt, if_neg h1, if_pos h2] at ho
      cases hv : o.value with
      | boolVal b =>
        rw [scanOptions, Opt.Name, if_neg h1, if_pos h2, Opt.Value, hv]
        exact ih t0 b hrest hn.2
      | _ => rw [hv] at ho <;> simp at ho
    · rw [scanOptions, Opt.Name, if_neg h1, if_neg h2]
      exact ih t0 sa hrest hn.2

theorem scanOptions_no_sync (l : List Opt) :
    ∀ t0 sa, wellTypedOpts l = true → hasOptNamed l "sync_append" = false →
      ∃ t', scanOptions l t0 sa = .ok (t', sa) := by
  induction l with
  | nil => intro t0 sa _ _; exact ⟨t0, rfl⟩
  | cons o rest ih =>
    intro t0 sa hw hn
    rw [wellTypedOpts, List.all_cons, Bool.and_eq_true] at hw
    rw [hasOptNamed, List.any_cons, Bool.or_eq_false_iff] at hn
    obtain ⟨ho, hrest⟩ := hw
    have h2 : ¬ o.name = "sync_append" := by
      intro hc
      have := hn.1
      rw [Opt.Name, hc] at this
      simp at this
    by_cases h1 : o.name = "timestamp"
    · rw [wellTypedOpt, if_pos h1] at ho
      cases hv : o.value with
      | timeVal tv =>
        rw [scanOptions, Opt.Name, if_pos h1, Opt.Value, hv]
        exact ih tv.unix sa hrest hn.2
      | _ => rw [hv] at ho <;> simp at ho
    · rw [scanOptions, Opt.Name, if_neg h1, if_neg h2]
      exact ih t0 sa hrest hn.2

/-! ## Helper lemmas about `Post`, `Close` and `Shutdown` -/

theorem Post_open_eq {α : Type} (pool : List (Envelope α)) (env : PostEnv)
    (tag : String) (v : α) (options : List Opt) (t0 : Int) (sa : Bool)
    (hscan : scanOptions options 0 false = .ok (t0, sa)) :
    Client.Post false pool env tag v options =
      (let t : Int := if t0 = 0 then env.nowUnix else t0
      let msg : Envelope α := ⟨tag, t, some v, sa⟩
      let pool1 := (getMessage pool).2
      if env.doneAtEnqueue && (!env.queueReady || env.enqueuePicksDone) then
        ⟨.ret writerClosedErr, none, pool1⟩
      else if env.queueReady then
        if sa then
          if env.doneAtAck && (!env.ackReady || env.ackPicksDone) then
            ⟨.ret writerClosedErr, some msg, pool1⟩
          else if env.ackReady then
            ⟨.ret env.ackValue, some msg, pool1⟩
          else
            ⟨.blocked, some msg, pool1⟩
        else
          ⟨.ret none, some msg, pool1⟩
      else
        ⟨.blocked, none, pool1⟩) := by
  unfold Client.Post
  rw [hscan]
  rfl

theorem Post_done_first {α : Type} (pool : List (Envelope α)) (env : PostEnv)
    (tag : String) (v : α) (options : List Opt)
    (hw : wellTypedOpts options = true)
    (hdone : env.doneAtEnqueue = true) (hq : env.queueReady = false) :
    Client.Post false pool env tag v options =
      ⟨.ret writerClosedErr, none, (getMessage pool).2⟩ := by
  obtain ⟨⟨t0, sa⟩, hscan⟩ := scanOptions_ok_of_wellTyped options 0 false hw
  rw [Post_open_eq pool env tag v options t0 sa hscan]
  simp only [hdone, hq]
  rfl

theorem Shutdown_state_eq (s : ClientState) (ctx : Option Ctx)
    (env : ShutdownEnv) :
    (Client.Shutdown s ctx env).state = (Client.Close s).1 := by
  unfold Client.Shutdown
  cases ctx with
  | none =>
    by_cases h : env.doneReady = true
    · simp only [h, if_true]; rfl
    · simp only [Bool.not_eq_true] at h
      simp only [h]; rfl
  | some cx =>
    by_cases h1 : (env.ctxReady && (!env.doneReady || env.picksCtx)) = true
    · simp only [h1, if_true]; rfl
    · simp only [Bool.not_eq_true] at h1
      simp only [h1, Bool.false_eq_true, if_false]
      by_cases h2 : env.doneReady = true
      · simp only [h2, if_true]; rfl
      · simp only [Bool.not_eq_true] at h2
        simp only [h2]; rfl

theorem applyOp_state_closed {α : Type} (s : ClientState) (op : ClientOp α)
    (h : s.closed = true) : (applyOp s op).closed = true := by
  cases op with
  | post pool env tag v options => exact h
  | close => rfl
  | shutdown ctx env =>
    have hs : applyOp s (ClientOp.shutdown (α := α) ctx env) =
        (Client.Shutdown s ctx env).state := by
      cases hout : Client.Shutdown s ctx env with
      | ret s' e => simp [applyOp, hout, ShutdownOutcome.state]
      | blocked s' => simp [applyOp, hout, ShutdownOutcome.state]
    rw [hs, Shutdown_state_eq]
    rfl

theorem scan_cons_timestamp (tv : GoTime) (post : List Opt) (t1 : Int)
    (sa1 : Bool) :
    scanOptions (WithTimestamp tv :: post) t1 sa1 =
      scanOptions post tv.unix sa1 := rfl

theorem scan_cons_sync (b : Bool) (post : List Opt) (t1 : Int) (sa1 : Bool) :
    scanOptions (WithSyncAppend b :: post) t1 sa1 =
      scanOptions post t1 b := rfl

theorem Post_enqueued_of_ready {α : Type} (pool : List (Envelope α))
    (env : PostEnv) (tag : String) (v : α) (options : List Opt) (t0 : Int)
    (sa : Bool) (hscan : scanOptions options 0 false = .ok (t0, sa))
    (hdone : env.doneAtEnqueue = false) (hq : env.queueReady = true) :
    (Client.Post false pool env tag v options).enqueued =
      some ⟨tag, if t0 = 0 then env.nowUnix else t0, some v, sa⟩ := by
  rw [Post_open_eq pool env tag v options t0 sa hscan]
  cases sa <;> simp only [hdone, hq, Bool.false_and, Bool.false_eq_true,
    if_false, if_true] <;> split_ifs <;> rfl

/-! ## Claim theorems -/

/-- C2: after `Close` has set the closed flag, every `Post` call fails
immediately with the client-closed error, enqueues no envelope, and
leaves the envelope pool untouched. -/
theorem post_after_close_fails {α : Type} (pool : List (Envelope α))
    (env : PostEnv) (tag : String) (v : α) (options : List Opt) :
    Client.Post true pool env tag v options =
      ⟨.ret clientClosedErr, none, pool⟩ := rfl

/-- C3: a `Post` that passed the closed-flag check, facing a worker-done
channel already closed at the enqueue select, returns the writer-closed
error and enqueues nothing (the worker contract, §6, guarantees nobody
receives on the enqueue channel once worker-done is closed, encoded as
`env.queueReady = false`); moreover with worker-done closed at both
selects the call never ends blocked, whatever the queue readiness. -/
theorem post_worker_done_no_block {α : Type} (pool : List (Envelope α))
    (env : PostEnv) (tag : String) (v : α) (options : List Opt)
    (hw : wellTypedOpts options = true) (hdone : env.doneAtEnqueue = true) :
    (env.queueReady = false →
      Client.Post false pool env tag v options =
        ⟨.ret writerClosedErr, none, (getMessage pool).2⟩)
    ∧ (env.doneAtAck = true →
      (Client.Post false pool env tag v options).result ≠ .blocked) := by
  obtain ⟨⟨t0, sa⟩, hscan⟩ := scanOptions_ok_of_wellTyped options 0 false hw
  constructor
  · intro hq
    exact Post_done_first pool env tag v options hw hdone hq
  · intro hack
    rw [Post_open_eq pool env tag v options t0 sa hscan]
    cases sa <;> cases hq : env.queueReady <;>
      cases hp : env.enqueuePicksDone <;> cases ha : env.ackReady <;>
      cases hpd : env.ackPicksDone <;>
      simp [hdone, hack, hq, hp, ha, hpd]

/-- C3 witness: a concrete closed worker-done at enqueue time makes a
plain `Post` return the writer-closed error at once. -/
theorem post_worker_done_no_block_witness :
    Client.Post false ([] : List (Envelope Nat))
        ⟨0, true, false, false, true, false, false, none⟩ "tag.a" 0 [] =
      ⟨.ret writerClosedErr, none, []⟩ :=
  (post_worker_done_no_block [] ⟨0, true, false, false, true, false, false,
    none⟩ "tag.a" 0 [] rfl rfl).1 rfl

/-- C6: `Close` sets the closed flag to true under the write-lock,
releases the lock, then invokes the cancellation trigger, and returns
nil; a second `Close` is safe and has the same effect (closed stays
true, nil is returned, and the idempotent trigger is invoked again). -/
theorem close_contract (s : ClientState) :
    Client.Close s =
      ({ closed := true, cancelCount := s.cancelCount + 1 },
       [.acquireWriteLock, .setClosedTrue, .releaseWriteLock, .invokeCancel],
       none)
    ∧ Client.Close (Client.Close s).1 =
      ({ closed := true, cancelCount := s.cancelCount + 2 },
       [.acquireWriteLock, .setClosedTrue, .releaseWriteLock, .invokeCancel],
       none) := ⟨rfl, rfl⟩

/-- C7 counterexample: on the worker-done-first path `Post` does not
return the acquired envelope to the reuse pool — with an empty pool the
pool after the failing call is still empty, not the singleton that the
pool's `release` (which prepends the cleared envelope) would have
produced. -/
theorem post_abandon_not_released :
    ((Client.Post false ([] : List (Envelope Nat))
        ⟨0, true, false, false, false, false, false, none⟩
        "tag.b" 7 []).result = .ret writerClosedErr)
    ∧ ((Client.Post false ([] : List (Envelope Nat))
        ⟨0, true, false, false, false, false, false, none⟩
        "tag.b" 7 []).pool = [])
    ∧ ([] : List (Envelope Nat)) ≠
        releaseMessage [] (Envelope.zero Nat) := by
  refine ⟨rfl, rfl, ?_⟩
  intro h
  simp [releaseMessage] at h

/-- C7 (amended): on the worker-done-first path the envelope is
abandoned: it is not handed to the enqueue channel and it is not
returned to the pool — the pool after the call is exactly the pool
left by the acquisition, with no release performed. -/
theorem post_abandons_envelope {α : Type} (pool : List (Envelope α))
    (env : PostEnv) (tag : String) (v : α) (options : List Opt)
    (hw : wellTypedOpts options = true) (hdone : env.doneAtEnqueue = true)
    (hq : env.queueReady = false) :
    (Client.Post false pool env tag v options).enqueued = none
    ∧ (Client.Post false pool env tag v options).pool = (getMessage pool).2 := by
  rw [Post_done_first pool env tag v options hw hdone hq]
  exact ⟨rfl, rfl⟩

/-- C7 witness: the amended behavior on a concrete one-envelope pool —
the acquired envelope is taken out and never put back. -/
theorem post_abandons_envelope_witness :
    ((Client.Post false [Envelope.zero Nat]
        ⟨0, true, false, false, false, false, false, none⟩
        "tag.c" 3 []).enqueued = none)
    ∧ ((Client.Post false [Envelope.zero Nat]
        ⟨0, true, false, false, false, false, false, none⟩
        "tag.c" 3 []).pool = []) :=
  post_abandons_envelope [Envelope.zero Nat]
    ⟨0, true, false, false, false, false, false, none⟩ "tag.c" 3 [] rfl rfl rfl

/-- C8: without a sync_append option set to true, a `Post` whose
enqueue attempt succeeds returns nil immediately; the acknowledgment
environment (worker reply, ack-select readiness) plays no role in the
outcome, since the equation holds for every value of those fields. -/
theorem post_no_sync_returns_nil {α : Type} (pool : List (Envelope α))
    (env : PostEnv) (tag : String) (v : α) (options : List Opt) (t0 : Int)
    (hscan : scanOptions options 0 false = .ok (t0, false))
    (hdone : env.doneAtEnqueue = false) (hq : env.queueReady = true) :
    Client.Post false pool env tag v options =
      ⟨.ret none,
       some ⟨tag, if t0 = 0 then env.nowUnix else t0, some v, false⟩,
       (getMessage pool).2⟩ := by
  rw [Post_open_eq pool env tag v options t0 false hscan]
  simp only [hdone, hq, Bool.false_and, Bool.false_eq_true, if_false, if_true]

/-- C8 witness: a `Post` with no options at all, against an adversarial
acknowledgment environment (worker-done closed at the ack select, a
pending error reply), still returns nil right after the enqueue. -/
theorem post_no_sync_returns_nil_witness :
    Client.Post false ([] : List (Envelope Nat))
        ⟨42, false, true, false, true, true, true, some "err"⟩ "tag.d" 5 [] =
      ⟨.ret none, some ⟨"tag.d", 42, some 5, false⟩, []⟩ :=
  post_no_sync_returns_nil [] ⟨42, false, true, false, true, true, true,
    some "err"⟩ "tag.d" 5 [] 0 rfl rfl rfl

/-- C4: a `Post` with sync_append true whose enqueue succeeded blocks
on the acknowledgment select and (a) returns the writer-closed error
when worker-done is closed there and wins the race, (b) returns the
worker's reply verbatim (nil or an error) when the acknowledgment wins,
and (c) is blocked exactly while neither channel is ready. -/
theorem post_sync_append_ack {α : Type} (pool : List (Envelope α))
    (env : PostEnv) (tag : String) (v : α) (options : List Opt) (t0 : Int)
    (hscan : scanOptions options 0 false = .ok (t0, true))
    (hdone : env.doneAtEnqueue = false) (hq : env.queueReady = true) :
    ((env.doneAtAck = true →
       env.ackReady = false ∨ env.ackPicksDone = true →
       (Client.Post false pool env tag v options).result =
         .ret writerClosedErr)
    ∧ (env.ackReady = true →
       ¬(env.doneAtAck = true ∧ env.ackPicksDone = true) →
       (Client.Post false pool env tag v options).result = .ret env.ackValue)
    ∧ (env.ackReady = false → env.doneAtAck = false →
       (Client.Post false pool env tag v options).result = .blocked)) := by
  refine ⟨?_, ?_, ?_⟩
  · intro h1 h2
    rw [Post_open_eq pool env tag v options t0 true hscan]
    rcases h2 with h2 | h2 <;> simp [hdone, hq, h1, h2]
  · intro h1 h2
    have hc : (env.doneAtAck && env.ackPicksDone) = false := by
      cases hda : env.doneAtAck <;> cases hap : env.ackPicksDone <;>
        simp_all
    rw [Post_open_eq pool env tag v options t0 true hscan]
    simp [hdone, hq, h1, hc]
  · intro h1 h2
    rw [Post_open_eq pool env tag v options t0 true hscan]
    simp [hdone, hq, h1, h2]

/-- C4 witness: a worker reply carrying a buffer-exceeded error is
returned verbatim by a sync_append `Post`. -/
theorem post_sync_append_ack_witness :
    (Client.Post false ([] : List (Envelope Nat))
        ⟨9, false, true, false, false, true, false, some "buffer full"⟩
        "tag.e" 1 [WithSyncAppend true]).result =
      .ret (some "buffer full") :=
  (post_sync_append_ack [] ⟨9, false, true, false, false, true, false,
      some "buffer full"⟩ "tag.e" 1 [WithSyncAppend true] 0 rfl rfl
      rfl).2.1 rfl (by simp)

/-- C5: `Shutdown` performs `Close` first, so the outcome always
carries the post-`Close` state with the closed flag already true; with
a non-nil context it returns the context's error when the context's
done-channel wins the wait race, nil when worker-done wins; with a nil
context it can only return nil via worker-done (else it stays blocked),
never a deadline error. -/
theorem shutdown_contract (s : ClientState) (ctx : Option Ctx)
    (env : ShutdownEnv) :
    ((Client.Shutdown s ctx env).state = (Client.Close s).1
      ∧ (Client.Shutdown s ctx env).state.closed = true)
    ∧ (∀ cx, ctx = some cx → env.ctxReady = true →
        (env.doneReady = false ∨ env.picksCtx = true) →
        Client.Shutdown s ctx env = .ret (Client.Close s).1 (some cx.err))
    ∧ (env.doneReady = true →
        ¬(ctx.isSome = true ∧ env.ctxReady = true ∧ env.picksCtx = true) →
        Client.Shutdown s ctx env = .ret (Client.Close s).1 none)
    ∧ (ctx = none →
        Client.Shutdown s none env =
          (if env.doneReady then .ret (Client.Close s).1 none
           else .blocked (Client.Close s).1)) := by
  refine ⟨⟨Shutdown_state_eq s ctx env, ?_⟩, ?_, ?_, ?_⟩
  · rw [Shutdown_state_eq]; rfl
  · intro cx hctx h1 h2
    subst hctx
    have hc : (env.ctxReady && (!env.doneReady || env.picksCtx)) = true := by
      rcases h2 with h2 | h2 <;> simp [h1, h2]
    simp [Client.Shutdown, Client.Close, hc]
  · intro h1 h2
    cases ctx with
    | none => simp [Client.Shutdown, Client.Close, h1]
    | some cx =>
      have hc : (env.ctxReady && (!env.doneReady || env.picksCtx)) = false := by
        have : ¬(env.ctxReady = true ∧ env.picksCtx = true) := by
          intro hcp
          exact h2 ⟨rfl, hcp.1, hcp.2⟩
        cases hcr : env.ctxReady <;> cases hpc : env.picksCtx <;>
          simp_all [h1]
      simp [Client.Shutdown, Client.Close, h1, hc]
      intro hcr
      rw [h1] at hc
      simpa [hcr] using hc
  · intro hctx
    cases hd : env.doneReady <;>
      simp [Client.Shutdown, Client.Close, hd]

/-- C5 witness: a deadline context that wins the race makes `Shutdown`
return exactly the context's error, with the closed flag already set by
the internal `Close`. -/
theorem shutdown_contract_witness :
    Client.Shutdown ⟨false, 0⟩ (some ⟨"context deadline exceeded"⟩)
        ⟨true, false, false⟩ =
      .ret ⟨true, 1⟩ (some "context deadline exceeded") :=
  (shutdown_contract ⟨false, 0⟩ (some ⟨"context deadline exceeded"⟩)
    ⟨true, false, false⟩).2.1 ⟨"context deadline exceeded"⟩ rfl rfl
    (Or.inl rfl)

/-- C9: the closed flag is monotone — once true, no sequence of `Post`,
`Close` or `Shutdown` operations ever makes it false again. -/
theorem closed_flag_monotone {α : Type} (s : ClientState)
    (l : List (ClientOp α)) (h : s.closed = true) :
    (applyOps s l).closed = true := by
  induction l generalizing s with
  | nil => exact h
  | cons op rest ih =>
    exact ih (applyOp s op) (applyOp_state_closed s op h)

/-- C9 witness: a closed client stays closed across a further `Close`
and a `Post`. -/
theorem closed_flag_monotone_witness :
    (applyOps (α := Nat) ⟨true, 1⟩
      [.close,
       .post [] ⟨0, false, true, false, false, false, false, none⟩ "t" 0 []]
    ).closed = true :=
  closed_flag_monotone ⟨true, 1⟩
    [.close,
     .post [] ⟨0, false, true, false, false, false, false, none⟩ "t" 0 []]
    rfl

/-- C1 counterexample: a timestamp option carrying exactly the Unix
epoch (unix seconds 0) does not override the record time — the scan
leaves `t = 0` and the `t == 0` default then substitutes the current
time, so the enqueued envelope carries the current time, not 0. -/
theorem post_epoch_timestamp_ignored :
    ((Client.Post false ([] : List (Envelope Nat))
        ⟨1700000000, false, true, false, false, false, false, none⟩
        "tag.a" 0 [WithTimestamp ⟨0⟩]).enqueued.map Envelope.Time =
      some 1700000000)
    ∧ (1700000000 : Int) ≠ 0 :=
  ⟨rfl, by decide⟩

/-- C1 (amended): when the last timestamp option of the call carries a
time whose unix seconds are nonzero, the enqueued envelope carries
exactly those unix seconds; when the call has no timestamp option the
envelope carries the current time's unix seconds.  (A timestamp equal
to the Unix epoch is treated as absent and replaced by the current
time — see the counterexample.) -/
theorem post_timestamp_contract {α : Type} :
    (∀ (pool : List (Envelope α)) (env : PostEnv) (tag : String) (v : α)
       (pre : List Opt) (tv : GoTime) (post : List Opt),
       wellTypedOpts pre = true → wellTypedOpts post = true →
       hasOptNamed post "timestamp" = false → tv.unix ≠ 0 →
       env.doneAtEnqueue = false → env.queueReady = true →
       ∃ e, (Client.Post false pool env tag v
              (pre ++ WithTimestamp tv :: post)).enqueued = some e
            ∧ e.Time = tv.unix)
    ∧ (∀ (pool : List (Envelope α)) (env : PostEnv) (tag : String) (v : α)
       (options : List Opt),
       wellTypedOpts options = true →
       hasOptNamed options "timestamp" = false →
       env.doneAtEnqueue = false → env.queueReady = true →
       ∃ e, (Client.Post false pool env tag v options).enqueued = some e
            ∧ e.Time = env.nowUnix) := by
  constructor
  · intro pool env tag v pre tv post hpre hpost hnots htnz hdone hq
    obtain ⟨t1, sa1, h1⟩ :=
      scanOptions_append pre (WithTimestamp tv :: post) 0 false hpre
    obtain ⟨sa', h2⟩ := scanOptions_no_timestamp post tv.unix sa1 hpost hnots
    have hscan : scanOptions (pre ++ WithTimestamp tv :: post) 0 false =
        .ok (tv.unix, sa') := by
      rw [h1, scan_cons_timestamp, h2]
    refine ⟨⟨tag, tv.unix, some v, sa'⟩, ?_, rfl⟩
    rw [Post_enqueued_of_ready pool env tag v _ tv.unix sa' hscan hdone hq,
      if_neg htnz]
  · intro pool env tag v options hw hnots hdone hq
    obtain ⟨sa', hscan⟩ := scanOptions_no_timestamp options 0 false hw hnots
    refine ⟨⟨tag, env.nowUnix, some v, sa'⟩, ?_, rfl⟩
    rw [Post_enqueued_of_ready pool env tag v options 0 sa' hscan hdone hq,
      if_pos rfl]

/-- C1 witness: a fixed nonzero past time riding a timestamp option is
what the enqueued envelope carries, not the current time; and with no
timestamp option the envelope carries the current time. -/
theorem post_timestamp_contract_witness :
    (∃ e, (Client.Post false ([] : List (Envelope Nat))
        ⟨1700000000, false, true, false, false, false, false, none⟩
        "tag.f" 2 [WithTimestamp ⟨981173106⟩]).enqueued = some e
      ∧ e.Time = 981173106)
    ∧ (∃ e, (Client.Post false ([] : List (Envelope Nat))
        ⟨1700000000, false, true, false, false, false, false, none⟩
        "tag.g" 2 []).enqueued = some e
      ∧ e.Time = 1700000000) :=
  ⟨(post_timestamp_contract (α := Nat)).1 []
      ⟨1700000000, false, true, false, false, false, false, none⟩ "tag.f" 2
      [] ⟨981173106⟩ [] rfl rfl rfl (by decide) rfl rfl,
   (post_timestamp_contract (α := Nat)).2 []
      ⟨1700000000, false, true, false, false, false, false, none⟩ "tag.g" 2
      [] rfl rfl rfl rfl⟩

/-- C10: when the options list holds several options with the same
recognized name, the scan ends with the last occurrence's value: the
scanned timestamp is the last timestamp option's unix seconds, and the
scanned sync_append flag is the last sync_append option's boolean,
earlier occurrences being overwritten. -/
theorem scan_last_option_wins :
    (∀ (pre : List Opt) (tv : GoTime) (post : List Opt) (t0 : Int)
       (sa0 : Bool),
       wellTypedOpts pre = true → wellTypedOpts post = true →
       hasOptNamed post "timestamp" = false →
       ∃ sa', scanOptions (pre ++ WithTimestamp tv :: post) t0 sa0 =
         .ok (tv.unix, sa'))
    ∧ (∀ (pre : List Opt) (b : Bool) (post : List Opt) (t0 : Int)
       (sa0 : Bool),
       wellTypedOpts pre = true → wellTypedOpts post = true →
       hasOptNamed post "sync_append" = false →
       ∃ t', scanOptions (pre ++ WithSyncAppend b :: post) t0 sa0 =
         .ok (t', b)) := by
  constructor
  · intro pre tv post t0 sa0 hpre hpost hnots
    obtain ⟨t1, sa1, h1⟩ :=
      scanOptions_append pre (WithTimestamp tv :: post) t0 sa0 hpre
    obtain ⟨sa', h2⟩ := scanOptions_no_timestamp post tv.unix sa1 hpost hnots
    exact ⟨sa', by rw [h1, scan_cons_timestamp, h2]⟩
  · intro pre b post t0 sa0 hpre hpost hnosync
    obtain ⟨t1, sa1, h1⟩ :=
      scanOptions_append pre (WithSyncAppend b :: post) t0 sa0 hpre
    obtain ⟨t', h2⟩ := scanOptions_no_sync post t1 b hpost hnosync
    exact ⟨t', by rw [h1, scan_cons_sync, h2]⟩

/-- C10 witness: with two timestamp options the scan keeps the later
one, and with two sync_append options the scan keeps the later one. -/
theorem scan_last_option_wins_witness :
    (∃ sa', scanOptions [WithTimestamp ⟨5⟩, WithTimestamp ⟨7⟩] 0 false =
      .ok (7, sa'))
    ∧ (∃ t', scanOptions [WithSyncAppend false, WithSyncAppend true] 0 false =
      .ok (t', true)) :=
  ⟨scan_last_option_wins.1 [WithTimestamp ⟨5⟩] ⟨7⟩ [] 0 false rfl rfl rfl,
   scan_last_option_wins.2 [WithSyncAppend false] true [] 0 false rfl rfl rfl⟩

end Fluent
